import Mathlib

/-!
Verification development for `snakeeis.py`, a batch driver that fits
electrochemical impedance spectroscopy datasets against one circuit model and
aggregates the fit results into a spreadsheet.

The embedding models:
* the filesystem as lists of existing file paths and of directories with
  their entry listings;
* the external Zahner Analysis fitting engine as an oracle
  `String → String → Except String Json` (model path and dataset path to
  either a structured JSON fit result or an error message — a raised
  exception in the Python source);
* JSON values as a first-order inductive in which both arrays and objects
  are constructor chains (`arrNil`/`arrCons`, `objNil`/`objCons`), standing
  for Python lists and dicts;
* `pandas.json_normalize` as recursive flattening of nested objects with a
  `"."` separator, arrays kept whole as single cells;
* `pandas.to_numeric` with `errors="ignore"` as a per-column (here: per-cell,
  since every frame built by `gen_result_table_row` has exactly one row)
  best-effort conversion of numeric strings, where numeric literals are
  modelled as optionally signed decimal digit strings;
* `pandas.concat` as column-union concatenation that fills missing cells
  with `none` (pandas `NaN`) and raises on an empty input list;
* Python `dict(pairs)` as an association list in first-occurrence key order
  with last-write-wins values;
* raised exceptions as `Except` errors carrying the exception's message.

A `cli` run that returns `Except.ok (path, frame)` corresponds to the process
writing exactly one spreadsheet `frame` at `path` (with `index=False`, so the
frame carries no index column); a run that returns `Except.error e`
corresponds to the process aborting with exception `e` and writing nothing.
-/

namespace Snakeeis

/-- Structured JSON values as returned by `EisFittingResult.getFitResultJson`.
A JSON array is an `arrCons` chain ending in `arrNil`; a JSON object is an
`objCons` chain of key/value fields ending in `objNil` (Python dicts have
distinct keys; the type does not enforce that, and theorems that need it
assume it). -/
inductive Json where
  | null
  | bool (b : Bool)
  | num (n : Int)
  | str (s : String)
  | arrNil
  | arrCons (hd : Json) (tl : Json)
  | objNil
  | objCons (key : String) (val : Json) (rest : Json)
  deriving Repr, DecidableEq

/-- Whether a JSON value is an array (a Python list). -/
def Json.isArr : Json → Bool
  | Json.arrNil => true
  | Json.arrCons _ _ => true
  | _ => false

/-- Membership of a key/value field in a JSON object's field chain. -/
inductive HasField : Json → String → Json → Prop where
  | head (k : String) (v rest : Json) : HasField (Json.objCons k v rest) k v
  | tail (k2 : String) (v2 : Json) {rest : Json} {k : String} {v : Json}
      (h : HasField rest k v) : HasField (Json.objCons k2 v2 rest) k v

/-- Characters of the final path component of a path string. -/
def lastComponent (cs : List Char) : List Char :=
  (cs.reverse.takeWhile (fun c => c != '/')).reverse

/-- Final path component of a path string (`pathlib.Path.name`). -/
def fileName (p : String) : String :=
  String.mk (lastComponent p.data)

/-- Python `pathlib.Path.stem`: the final path component without its last
suffix; a name whose only dot is its leading character has no suffix. -/
def stem (p : String) : String :=
  let nm := lastComponent p.data
  match nm.reverse.dropWhile (fun c => c != '.') with
  | [] => String.mk nm
  | _ :: [] => String.mk nm
  | _ :: base => String.mk base.reverse

/-- Whether an entry name matches the glob pattern `"*.ism"`. -/
def matchesIsm (n : String) : Bool :=
  match n.data.reverse with
  | 'm' :: 's' :: 'i' :: '.' :: _ => true
  | _ => false

/-- Filesystem model: the regular files that exist, and the directories that
exist together with their entry names. -/
structure FS where
  files : List String
  dirs : List (String × List String)
  deriving Repr, DecidableEq

/-- Python `Path.exists`: true for an existing file or directory path. -/
def FS.pathExists (fs : FS) (p : String) : Bool :=
  fs.files.contains p || fs.dirs.any (fun d => d.1 == p)

/-- Python `Path.is_dir`. -/
def FS.isDir (fs : FS) (p : String) : Bool :=
  fs.dirs.any (fun d => d.1 == p)

/-- Python `z_data_dir.glob("*.ism")`: the directory's entries whose name
matches `*.ism`, as full paths, in listing (iteration) order. -/
def FS.globIsm (fs : FS) (dir : String) : List String :=
  match fs.dirs.find? (fun d => d.1 == dir) with
  | some d => (d.2.filter matchesIsm).map (fun n => dir ++ "/" ++ n)
  | none => []

/-- The world a run executes in: the filesystem plus the external fitting
engine reached over the Zahner Analysis REST API.  `engine m z` is the
outcome of fitting dataset `z` against model `m`: a JSON fit result, or the
message of the exception the engine raised. -/
structure World where
  fs : FS
  engine : String → String → Except String Json

/-- The `EisFitting` session handle; its `fit` member delegates to the
external engine (the `IsfxModelImport` and `IsmImport` handles it consumes
are identified by the paths they were constructed from). -/
structure EisFitting where
  fit : String → String → Except String Json

/-- Construction `EisFitting()` of a fresh session in world `w`. -/
def World.newFitting (w : World) : EisFitting := ⟨w.engine⟩

/-- The default argument `fitting_conn: EisFitting = EisFitting()` of
`fit_model` (source line 11): a single session value, evaluated once at
definition time, shared by every call that omits the argument. -/
def defaultFittingConn (w : World) : EisFitting := w.newFitting

/-- Exceptions raised by the pipeline. -/
inductive Err where
  | fileNotFound (msg : String)
  | notADirectory (msg : String)
  | fitError (msg : String)
  | valueError (msg : String)
  deriving Repr, DecidableEq

/-- Discriminator for the `FileNotFoundError` exception kind. -/
def Err.isFileNotFound : Err → Bool
  | Err.fileNotFound _ => true
  | _ => false

/-- Source `fit_model` (lines 10-37).  The two sequential existence checks of
the source are rendered as nested conditionals: the first guards the model
load, and the second — which guards the dataset load but erroneously tests
`model_path` again (source line 31) — guards the dataset load.  On success
the session's fit runs and the dataset path's stem is paired with the
result; an engine exception propagates as `Err.fitError` with its message. -/
def fit_model (w : World) (model_path z_data_path : String)
    (fitting_conn : EisFitting := defaultFittingConn w) :
    Except Err (String × Json) :=
  if w.fs.pathExists model_path then
    if w.fs.pathExists model_path then
      match fitting_conn.fit model_path z_data_path with
      | Except.ok r => Except.ok (stem z_data_path, r)
      | Except.error e => Except.error (Err.fitError e)
    else Except.error (Err.fileNotFound "Impedance data path does not exist")
  else Except.error (Err.fileNotFound "Model path does not exist")

/-- Last value bound to key `k` in an association list (the value a Python
`dict` built from the list holds at `k`). -/
def lastLookup (k : String) : List (String × α) → Option α
  | [] => none
  | (k2, v) :: rest =>
    match lastLookup k rest with
    | some v2 => some v2
    | none => if k2 == k then some v else none

/-- Python `dict(pairs)`: keys appear in first-occurrence order and each key
holds the last value bound to it. -/
def pyDict : List (String × α) → List (String × α)
  | [] => []
  | (k, v) :: rest =>
    match lastLookup k rest with
    | some v2 => (k, v2) :: (pyDict rest).filter (fun p => !(p.1 == k))
    | none => (k, v) :: pyDict rest

/-- First-match lookup in an association list (Python `d[k]`, as `Option`). -/
def listLookup (l : List (String × α)) (k : String) : Option α :=
  match l.find? (fun p => p.1 == k) with
  | some p => some p.2
  | none => none

/-- The list comprehension of source lines 60-63: `fit_model` runs on each
dataset path in order, sharing one session; the first exception aborts the
whole comprehension unmodified, discarding results already collected. -/
def fitAll (w : World) (fitting_conn : EisFitting) (model_path : String) :
    List String → Except Err (List (String × Json))
  | [] => Except.ok []
  | p :: rest =>
    match fit_model w model_path p fitting_conn with
    | Except.error e => Except.error e
    | Except.ok r =>
      match fitAll w fitting_conn model_path rest with
      | Except.error e => Except.error e
      | Except.ok rs => Except.ok (r :: rs)

/-- Source `fit_directory_of_models` (lines 40-64): directory existence and
directory-kind checks, one fresh `EisFitting()` session shared across all
files, and `dict(results)` over the glob of `*.ism` entries. -/
def fit_directory_of_models (w : World) (model_path z_data_dir : String) :
    Except Err (List (String × Json)) :=
  if !w.fs.pathExists z_data_dir then
    Except.error (Err.fileNotFound "Directory path does not exist")
  else if !w.fs.isDir z_data_dir then
    Except.error (Err.notADirectory "Path is not a directory")
  else
    match fitAll w w.newFitting model_path (w.fs.globIsm z_data_dir) with
    | Except.error e => Except.error e
    | Except.ok results => Except.ok (pyDict results)

/-- Recursive flattening of a JSON object's field chain, as
`pandas.json_normalize` with its default `sep="."` and `max_level=None`: a
nested object contributes its own flattened fields with the outer key and a
dot prepended (an empty nested object contributes nothing); any other value
— including an array, which `json_normalize` never expands — is kept whole
as a single cell under its own key. -/
def flattenFields : Json → List (String × Json)
  | Json.objCons _ Json.objNil rest => flattenFields rest
  | Json.objCons k (Json.objCons k2 v2 r2) rest =>
      (flattenFields (Json.objCons k2 v2 r2)).map (fun p => (k ++ "." ++ p.1, p.2)) ++
        flattenFields rest
  | Json.objCons k v rest => (k, v) :: flattenFields rest
  | _ => []

/-- Flattened columns of `pandas.json_normalize` on a fit-result JSON.  Fit
results are JSON objects; a non-object top level does not occur and yields
no columns. -/
def json_normalize (j : Json) : List (String × Json) :=
  flattenFields j

/-- Decimal integer literal parse, the model of a string that
`pandas.to_numeric` accepts: an optional sign followed by one or more
digits. -/
def parseNum (s : String) : Option Int :=
  let cs := s.data
  let core := match cs with
    | '-' :: rest => rest
    | '+' :: rest => rest
    | l => l
  let neg := match cs with
    | '-' :: _ => true
    | _ => false
  if !core.isEmpty && core.all Char.isDigit then
    let n : Nat := core.foldl (fun acc c => acc * 10 + (c.toNat - 48)) 0
    some (if neg then -(n : Int) else (n : Int))
  else none

/-- One cell under `pandas.to_numeric` with `errors="ignore"`: a string that
parses as a number is converted to that number; any other value — including
a string that fails to parse, where `errors="ignore"` suppresses the parse
error — is returned unchanged.  The function is total: coercion never
raises. -/
def coerceCell : Json → Json
  | Json.str s =>
    match parseNum s with
    | some n => Json.num n
    | none => Json.str s
  | v => v

/-- A pandas `DataFrame` without its index: named columns and positional
rows; a `none` cell is pandas `NaN` (a missing value). -/
structure Frame where
  columns : List String
  rows : List (List (Option Json))
  deriving Repr, DecidableEq

/-- Source `gen_result_table_row` (lines 67-86): `json_normalize` the fit
result (given here directly as the JSON that `getFitResultJson` returns),
insert the filename as the first column — `DataFrame.insert` raises if a
`"filename"` column already exists — and apply `pd.to_numeric` with
`errors="ignore"` to every column of the resulting one-row frame, the
filename column included. -/
def gen_result_table_row (filename : String) (result_json : Json) :
    Except String Frame :=
  let flat := json_normalize result_json
  if (flat.map Prod.fst).contains "filename" then
    Except.error "cannot insert filename, already exists"
  else
    Except.ok
      { columns := "filename" :: flat.map Prod.fst,
        rows := [(Json.str filename :: flat.map Prod.snd).map (fun v => some (coerceCell v))] }

/-- Deduplication keeping the first occurrence of each column label, the
order in which `pandas.concat` unions column sets. -/
def firstDedup : List String → List String
  | [] => []
  | c :: rest => c :: (firstDedup rest).filter (fun c2 => !(c2 == c))

/-- Index of the first occurrence of column label `c`. -/
def colIdx (c : String) : List String → Option Nat
  | [] => none
  | c2 :: rest => if c2 == c then some 0 else (colIdx c rest).map (· + 1)

/-- Value of column `c` in a row stored under column list `cols`; `none`
both for a stored missing value and for an absent column. -/
def getCell (cols : List String) (row : List (Option Json)) (c : String) : Option Json :=
  match colIdx c cols with
  | some i => (row[i]?).getD none
  | none => none

/-- Reindexing of one row from its frame's columns to the concatenated
column list, filling columns the row's frame lacks with `NaN`. -/
def reindexRow (oldCols : List String) (row : List (Option Json))
    (newCols : List String) : List (Option Json) :=
  newCols.map (fun c => getCell oldCols row c)

/-- Source `pd.concat(frames)` (lines 119-121): raises `ValueError` on an
empty list; otherwise the column set is the union of the frames' columns in
first-appearance order and every row is reindexed to it. -/
def pd_concat : List Frame → Except String Frame
  | [] => Except.error "No objects to concatenate"
  | frames =>
    let cols := firstDedup (frames.flatMap (fun f => f.columns))
    Except.ok
      { columns := cols,
        rows := frames.flatMap (fun f => f.rows.map (fun row => reindexRow f.columns row cols)) }

/-- Cell of row `i`, column `c` of a frame; `none` is a missing value. -/
def Frame.cell (f : Frame) (i : Nat) (c : String) : Option Json :=
  match f.rows[i]? with
  | some row => getCell f.columns row c
  | none => none

/-- The list comprehension of source line 120 building one frame per mapping
entry, in mapping order; a raised `ValueError` from `DataFrame.insert`
aborts it. -/
def buildFrames : List (String × Json) → Except Err (List Frame)
  | [] => Except.ok []
  | (n, r) :: rest =>
    match gen_result_table_row n r with
    | Except.error e => Except.error (Err.valueError e)
    | Except.ok f =>
      match buildFrames rest with
      | Except.error e => Except.error e
      | Except.ok fs => Except.ok (f :: fs)

/-- Source `cli` (lines 109-122): run the batch, build one row frame per
mapping entry, concatenate, and write `<z_data_dir>/<output_filename>.xlsx`
with `index=False`.  The `ok` value is the single write the process
performs; an `error` value is the uncaught exception of a run that writes
nothing. -/
def cli (w : World) (model_path z_data_dir : String)
    (output_filename : String := "output") : Except Err (String × Frame) :=
  match fit_directory_of_models w model_path z_data_dir with
  | Except.error e => Except.error e
  | Except.ok results =>
    match buildFrames results with
    | Except.error e => Except.error e
    | Except.ok frames =>
      match pd_concat frames with
      | Except.error e => Except.error (Err.valueError e)
      | Except.ok table =>
        Except.ok (z_data_dir ++ "/" ++ output_filename ++ ".xlsx", table)

/-! Concrete worlds used to instantiate and to refute the claims. -/

/-- Model file present, two datasets whose fit results bind key `"p"` to the
numeric string `"1"` and to the non-numeric string `"x"` respectively. -/
def wMixed : World :=
  { fs := { files := ["m.isfx"], dirs := [("d", ["a.ism", "b.ism"])] },
    engine := fun _ z =>
      if z == "d/a.ism" then Except.ok (Json.objCons "p" (Json.str "1") Json.objNil)
      else Except.ok (Json.objCons "p" (Json.str "x") Json.objNil) }

/-- Model file present, dataset directory exists but holds no `*.ism` file. -/
def wEmptyDir : World :=
  { fs := { files := ["m.isfx"], dirs := [("d", ["notes.txt"])] },
    engine := fun _ _ => Except.ok Json.objNil }

/-- Only the model file exists; no directories, no datasets. -/
def wModelOnly : World :=
  { fs := { files := ["m.isfx"], dirs := [] },
    engine := fun _ _ => Except.ok (Json.objCons "q" (Json.num 5) Json.objNil) }

/-- The model file is missing; the dataset directory exists but is empty. -/
def wNoModelEmpty : World :=
  { fs := { files := [], dirs := [("d", [])] },
    engine := fun _ _ => Except.ok Json.objNil }

/-- The model file is missing; the dataset directory holds one dataset. -/
def wNoModel : World :=
  { fs := { files := [], dirs := [("d", ["a.ism"])] },
    engine := fun _ _ => Except.ok Json.objNil }

/-- Model present, two datasets; the stem of the first is the numeric string
`"7"`, and the two fit results have disjoint key sets. -/
def wNumStem : World :=
  { fs := { files := ["m.isfx"], dirs := [("d", ["7.ism", "b.ism"])] },
    engine := fun _ z =>
      if z == "d/7.ism" then Except.ok (Json.objCons "p" (Json.num 2) Json.objNil)
      else Except.ok (Json.objCons "q" (Json.num 3) Json.objNil) }

/-- Model present, two datasets; the engine fits the first and raises on the
second. -/
def wFitFail : World :=
  { fs := { files := ["m.isfx"], dirs := [("d", ["a.ism", "b.ism"])] },
    engine := fun _ z =>
      if z == "d/a.ism" then Except.ok (Json.objCons "p" (Json.num 1) Json.objNil)
      else Except.error "fit did not converge" }

/-! Library of lemmas on the embedded operations. -/

theorem lastLookup_eq_none {α : Type} (k : String) (l : List (String × α))
    (h : k ∉ l.map Prod.fst) : lastLookup k l = none := by
  induction l with
  | nil => rfl
  | cons p rest ih =>
    obtain ⟨k2, v⟩ := p
    simp only [List.map_cons, List.mem_cons, not_or] at h
    have hb : (k2 == k) = false := by
      simp only [beq_eq_false_iff_ne, ne_eq]
      exact fun hh => h.1 hh.symm
    simp [lastLookup, ih h.2, hb]

theorem pyDict_eq_self {α : Type} (l : List (String × α))
    (h : (l.map Prod.fst).Nodup) : pyDict l = l := by
  induction l with
  | nil => rfl
  | cons p rest ih =>
    obtain ⟨k, v⟩ := p
    simp only [List.map_cons, List.nodup_cons] at h
    simp only [pyDict, lastLookup_eq_none k rest h.1, ih h.2]

theorem listLookup_nil {α : Type} (k : String) : listLookup ([] : List (String × α)) k = none :=
  rfl

theorem listLookup_cons {α : Type} (k k2 : String) (v : α) (l : List (String × α)) :
    listLookup ((k2, v) :: l) k = if k2 == k then some v else listLookup l k := by
  simp only [listLookup, List.find?]
  cases hb : (k2 == k) <;> simp [hb]

theorem listLookup_filter_ne {α : Type} (k kdrop : String) (l : List (String × α))
    (h : (kdrop == k) = false) :
    listLookup (l.filter (fun p => !(p.1 == kdrop))) k = listLookup l k := by
  induction l with
  | nil => rfl
  | cons p rest ih =>
    obtain ⟨k2, v⟩ := p
    by_cases hk : (k2 == kdrop) = true
    · have hk2 : (k2 == k) = false := by
        have h1 : k2 = kdrop := by exact beq_iff_eq.mp hk
        subst h1; exact h
      simp [List.filter_cons, hk, ih, listLookup_cons, hk2]
    · have hk' : (k2 == kdrop) = false := by revert hk; cases k2 == kdrop <;> simp
      simp [List.filter_cons, hk', listLookup_cons, ih]

theorem listLookup_pyDict {α : Type} (l : List (String × α)) (k : String) :
    listLookup (pyDict l) k = lastLookup k l := by
  induction l with
  | nil => rfl
  | cons p rest ih =>
    obtain ⟨k2, v⟩ := p
    by_cases hk : k2 = k
    · subst hk
      cases hl : lastLookup k2 rest with
      | some v2 => simp [pyDict, hl, listLookup_cons, lastLookup]
      | none => simp [pyDict, hl, listLookup_cons, lastLookup]
    · have hb : (k2 == k) = false := by simp only [beq_eq_false_iff_ne, ne_eq]; exact hk
      cases hl : lastLookup k2 rest <;>
        cases hlk : lastLookup k rest <;>
          simp [pyDict, hl, listLookup_cons, hb, listLookup_filter_ne k k2 _ hb, ih,
            lastLookup, hlk]

theorem fitAll_ok (w : World) (conn : EisFitting) (m : String) (l : List String)
    (f : String → Json) (hm : w.fs.pathExists m = true)
    (hok : ∀ p ∈ l, conn.fit m p = Except.ok (f p)) :
    fitAll w conn m l = Except.ok (l.map (fun p => (stem p, f p))) := by
  induction l with
  | nil => rfl
  | cons p rest ih =>
    have hp := hok p (by simp)
    have hrest := ih (fun q hq => hok q (by simp [hq]))
    simp [fitAll, fit_model, hm, hp, hrest]

theorem fitAll_error (w : World) (conn : EisFitting) (m : String)
    (l1 l2 : List String) (p msg : String)
    (hm : w.fs.pathExists m = true)
    (hok : ∀ q ∈ l1, ∃ r, conn.fit m q = Except.ok r)
    (hfail : conn.fit m p = Except.error msg) :
    fitAll w conn m (l1 ++ p :: l2) = Except.error (Err.fitError msg) := by
  induction l1 with
  | nil => simp [fitAll, fit_model, hm, hfail]
  | cons q l1x ih =>
    obtain ⟨r, hr⟩ := hok q (by simp)
    have hrest := ih (fun q2 hq2 => hok q2 (by simp [hq2]))
    simp [fitAll, fit_model, hm, hr, hrest]

theorem colIdx_eq_none (c : String) (cols : List String) (h : c ∉ cols) :
    colIdx c cols = none := by
  induction cols with
  | nil => rfl
  | cons c2 rest ih =>
    simp only [List.mem_cons, not_or] at h
    have hb : (c2 == c) = false := by
      simp only [beq_eq_false_iff_ne, ne_eq]
      exact fun hh => h.1 hh.symm
    simp [colIdx, hb, ih h.2]

theorem getCell_not_mem (c : String) (cols : List String) (row : List (Option Json))
    (h : c ∉ cols) : getCell cols row c = none := by
  simp [getCell, colIdx_eq_none c cols h]

theorem getCell_cons_self (c : String) (cols : List String) (x : Option Json)
    (row : List (Option Json)) : getCell (c :: cols) (x :: row) c = x := by
  simp [getCell, colIdx]

theorem getCell_cons_ne (c c2 : String) (hb : (c2 == c) = false) (cols : List String)
    (x : Option Json) (row : List (Option Json)) :
    getCell (c2 :: cols) (x :: row) c = getCell cols row c := by
  simp only [getCell, colIdx, hb, if_false]
  cases hidx : colIdx c cols with
  | none => simp
  | some i => simp

theorem getCell_map (g : String → Option Json) (cols : List String) (c : String)
    (h : c ∈ cols) : getCell cols (cols.map g) c = g c := by
  induction cols with
  | nil => cases h
  | cons c2 rest ih =>
    by_cases hc : c2 = c
    · subst hc
      exact getCell_cons_self c2 rest (g c2) (rest.map g)
    · have hb : (c2 == c) = false := by
        simp only [beq_eq_false_iff_ne, ne_eq]; exact hc
      have hmem : c ∈ rest := by
        rcases List.mem_cons.mp h with h1 | h1
        · exact absurd h1.symm hc
        · exact h1
      rw [List.map_cons, getCell_cons_ne c c2 hb, ih hmem]

theorem getCell_flat (flat : List (String × Json)) (k : String) (v : Json)
    (hnd : (flat.map Prod.fst).Nodup) (hmem : (k, v) ∈ flat) :
    getCell (flat.map Prod.fst) ((flat.map Prod.snd).map (fun u => some (coerceCell u))) k =
      some (coerceCell v) := by
  induction flat with
  | nil => cases hmem
  | cons p rest ih =>
    obtain ⟨k2, v2⟩ := p
    simp only [List.map_cons, List.nodup_cons] at hnd
    rcases List.mem_cons.mp hmem with heq | hmem2
    · obtain ⟨h1, h2⟩ := Prod.mk.injEq .. ▸ heq
      subst h1; subst h2
      simp only [List.map_cons]
      exact getCell_cons_self k _ _ _
    · have hk : k2 ≠ k := by
        intro hh
        subst hh
        exact hnd.1 (List.mem_map.mpr ⟨(k2, v), hmem2, rfl⟩)
      have hb : (k2 == k) = false := by
        simp only [beq_eq_false_iff_ne, ne_eq]; exact hk
      simp only [List.map_cons]
      rw [getCell_cons_ne k k2 hb, ih hnd.2 hmem2]

theorem mem_firstDedup (c : String) (l : List String) : c ∈ firstDedup l ↔ c ∈ l := by
  induction l with
  | nil => simp [firstDedup]
  | cons c2 rest ih =>
    simp only [firstDedup, List.mem_cons, List.mem_filter]
    constructor
    · rintro (rfl | ⟨h1, _⟩)
      · exact Or.inl rfl
      · exact Or.inr (ih.mp h1)
    · rintro (rfl | h)
      · exact Or.inl rfl
      · by_cases hc : c = c2
        · exact Or.inl hc
        · refine Or.inr ⟨ih.mpr h, ?_⟩
          simp [hc]

theorem getCell_reindex (oldCols newCols : List String) (row : List (Option Json))
    (c : String) (h : c ∈ newCols) :
    getCell newCols (reindexRow oldCols row newCols) c = getCell oldCols row c :=
  getCell_map (fun c2 => getCell oldCols row c2) newCols c h

theorem pd_concat_pair (F1 F2 : Frame) :
    pd_concat [F1, F2] = Except.ok
      { columns := firstDedup (F1.columns ++ F2.columns),
        rows :=
          F1.rows.map (fun r => reindexRow F1.columns r (firstDedup (F1.columns ++ F2.columns))) ++
          F2.rows.map (fun r => reindexRow F2.columns r (firstDedup (F1.columns ++ F2.columns))) } := by
  simp [pd_concat]

theorem gen_ok (n : String) (r : Json)
    (hf : "filename" ∉ (json_normalize r).map Prod.fst) :
    gen_result_table_row n r = Except.ok
      { columns := "filename" :: (json_normalize r).map Prod.fst,
        rows := [some (coerceCell (Json.str n)) ::
          ((json_normalize r).map Prod.snd).map (fun u => some (coerceCell u))] } := by
  simp [gen_result_table_row, List.map_cons, List.map_map]
  intro x hx
  exact hf (List.mem_map.mpr ⟨("filename", x), hx, rfl⟩)

theorem gen_ok_inv (n : String) (r : Json) (F : Frame)
    (h : gen_result_table_row n r = Except.ok F) :
    "filename" ∉ (json_normalize r).map Prod.fst ∧
    F.columns = "filename" :: (json_normalize r).map Prod.fst ∧
    F.rows = [some (coerceCell (Json.str n)) ::
      ((json_normalize r).map Prod.snd).map (fun u => some (coerceCell u))] := by
  by_cases hf : "filename" ∈ (json_normalize r).map Prod.fst
  · have hc : ((json_normalize r).map Prod.fst).contains "filename" = true := by
      rw [List.contains_eq_any_beq, List.any_eq_true]
      exact ⟨"filename", hf, by simp⟩
    simp only [gen_result_table_row, hc, if_true] at h
    cases h
  · rw [gen_ok n r hf] at h
    obtain rfl : _ = F := Except.ok.inj h
    exact ⟨hf, rfl, rfl⟩

theorem gen_cell_name (n : String) (r : Json) (F : Frame)
    (hF : gen_result_table_row n r = Except.ok F) :
    F.cell 0 "filename" = some (coerceCell (Json.str n)) := by
  obtain ⟨hf, hcols, hrows⟩ := gen_ok_inv n r F hF
  simp only [Frame.cell, hrows, List.getElem?_cons_zero, hcols]
  exact getCell_cons_self "filename" _ _ _

theorem gen_cell_key (n : String) (r : Json) (F : Frame) (k : String) (v : Json)
    (hF : gen_result_table_row n r = Except.ok F)
    (hnd : ((json_normalize r).map Prod.fst).Nodup)
    (hmem : (k, v) ∈ json_normalize r) :
    F.cell 0 k = some (coerceCell v) := by
  obtain ⟨hf, hcols, hrows⟩ := gen_ok_inv n r F hF
  have hkmem : k ∈ (json_normalize r).map Prod.fst :=
    List.mem_map.mpr ⟨(k, v), hmem, rfl⟩
  have hkf : ("filename" == k) = false := by
    simp only [beq_eq_false_iff_ne, ne_eq]
    intro heq
    exact hf (heq ▸ hkmem)
  simp only [Frame.cell, hrows, List.getElem?_cons_zero, hcols]
  rw [getCell_cons_ne k "filename" hkf]
  exact getCell_flat _ k v hnd hmem

theorem gen_cell_absent (n : String) (r : Json) (F : Frame) (k : String)
    (hF : gen_result_table_row n r = Except.ok F)
    (hk : k ∉ (json_normalize r).map Prod.fst) (hkf : k ≠ "filename") :
    F.cell 0 k = none := by
  obtain ⟨hf, hcols, hrows⟩ := gen_ok_inv n r F hF
  have hnc : k ∉ F.columns := by
    rw [hcols]
    simp only [List.mem_cons, not_or]
    exact ⟨hkf, hk⟩
  simp only [Frame.cell, hrows, List.getElem?_cons_zero]
  exact getCell_not_mem k _ _ hnc

theorem gen_rows_length (n : String) (r : Json) (F : Frame)
    (hF : gen_result_table_row n r = Except.ok F) : F.rows.length = 1 := by
  obtain ⟨_, _, hrows⟩ := gen_ok_inv n r F hF
  rw [hrows]
  rfl

theorem mem_flattenFields_tail (k : String) (v rest : Json) (x : String × Json)
    (h : x ∈ flattenFields rest) : x ∈ flattenFields (Json.objCons k v rest) := by
  cases v <;>
    first
      | exact h
      | exact List.mem_cons_of_mem _ h
      | exact List.mem_append_right _ h

theorem mem_flattenFields_head_obj (k k2 : String) (v2 rest2 rest : Json) (x : String × Json)
    (h : x ∈ flattenFields (Json.objCons k2 v2 rest2)) :
    (k ++ "." ++ x.1, x.2) ∈
      flattenFields (Json.objCons k (Json.objCons k2 v2 rest2) rest) :=
  List.mem_append_left _ (List.mem_map.mpr ⟨x, h, rfl⟩)

theorem mem_flattenFields_head_arr (k : String) (a rest : Json) (ha : a.isArr = true) :
    (k, a) ∈ flattenFields (Json.objCons k a rest) := by
  cases a with
  | arrNil => exact List.mem_cons_self _ _
  | arrCons hd tl => exact List.mem_cons_self _ _
  | null => simp [Json.isArr] at ha
  | bool b => simp [Json.isArr] at ha
  | num n2 => simp [Json.isArr] at ha
  | str s => simp [Json.isArr] at ha
  | objNil => simp [Json.isArr] at ha
  | objCons k2 v2 r2 => simp [Json.isArr] at ha

theorem coerceCell_arr (a : Json) (ha : a.isArr = true) : coerceCell a = a := by
  cases a <;> first | rfl | simp [Json.isArr] at ha

theorem hasField_flatten_dot (r : Json) (k : String) (sub : Json) (x : String × Json)
    (hf : HasField r k sub) (hx : x ∈ flattenFields sub) :
    (k ++ "." ++ x.1, x.2) ∈ flattenFields r := by
  induction hf with
  | head k v rest =>
    cases v with
    | objCons k2 v2 r2 => exact mem_flattenFields_head_obj k k2 v2 r2 rest x hx
    | objNil => cases hx
    | null => cases hx
    | bool b => cases hx
    | num n2 => cases hx
    | str s => cases hx
    | arrNil => cases hx
    | arrCons hd tl => cases hx
  | tail k2 v2 h ih => exact mem_flattenFields_tail _ _ _ _ (ih hx)

theorem hasField_flatten_arr (r : Json) (k : String) (a : Json)
    (hf : HasField r k a) (ha : a.isArr = true) :
    (k, a) ∈ flattenFields r := by
  induction hf with
  | head k v rest => exact mem_flattenFields_head_arr k v rest ha
  | tail k2 v2 h ih => exact mem_flattenFields_tail _ _ _ _ (ih ha)

theorem cell_of_rows_singleton (F : Frame) (r : List (Option Json))
    (h : F.rows = [r]) (c : String) : F.cell 0 c = getCell F.columns r c := by
  simp [Frame.cell, h]

theorem concat_pair_cells (F1 F2 T : Frame) (r1 r2 : List (Option Json))
    (hr1 : F1.rows = [r1]) (hr2 : F2.rows = [r2])
    (hT : pd_concat [F1, F2] = Except.ok T) :
    T.columns = firstDedup (F1.columns ++ F2.columns) ∧
    (∀ c, c ∈ T.columns → T.cell 0 c = getCell F1.columns r1 c) ∧
    (∀ c, c ∈ T.columns → T.cell 1 c = getCell F2.columns r2 c) ∧
    T.rows.length = 2 := by
  rw [pd_concat_pair] at hT
  obtain rfl := Except.ok.inj hT
  refine ⟨rfl, ?_, ?_, ?_⟩
  · intro c hc
    simp only [Frame.cell, hr1, hr2, List.map_cons, List.map_nil, List.cons_append,
      List.nil_append, List.getElem?_cons_zero]
    exact getCell_reindex F1.columns _ r1 c hc
  · intro c hc
    simp only [Frame.cell, hr1, hr2, List.map_cons, List.map_nil, List.cons_append,
      List.nil_append, List.getElem?_cons_succ, List.getElem?_cons_zero]
    exact getCell_reindex F2.columns _ r2 c hc
  · simp [hr1, hr2]

/-! Claim theorems. -/

/-- Claim C2 (code bug): the spec's Loader contract requires the dataset
path to be checked, failing with "Impedance data path does not exist" when
it is missing.  Evaluating the code at a world where the model file exists
and the dataset `missing.ism` does not: the call does not fail at all — the
dataset is handed to the engine and the fit succeeds — because the guard at
source line 31 re-tests the model path. -/
theorem missing_dataset_path_not_reported :
    wModelOnly.fs.pathExists "missing.ism" = false ∧
    fit_model wModelOnly "m.isfx" "missing.ism" wModelOnly.newFitting =
      Except.ok ("missing", Json.objCons "q" (Json.num 5) Json.objNil) :=
  ⟨rfl, rfl⟩

/-- Claim C3 (confirmed): whenever the model path exists, `fit_model` is the
engine fit outcome on the given paths — the dataset is loaded and fitted
regardless of whether the dataset path exists — and no call of `fit_model`
can return the "Impedance data path does not exist" error, since the guard
before the dataset load re-tests the model path (source line 31). -/
theorem data_path_check_unreachable (w : World) (m z : String) (conn : EisFitting)
    (hm : w.fs.pathExists m = true) :
    fit_model w m z conn =
      (match conn.fit m z with
       | Except.ok r => Except.ok (stem z, r)
       | Except.error e => Except.error (Err.fitError e)) ∧
    fit_model w m z conn ≠
      Except.error (Err.fileNotFound "Impedance data path does not exist") := by
  constructor
  · simp [fit_model, hm]
  · simp only [fit_model, hm, if_true]
    cases conn.fit m z <;> simp

/-- Witness for C3 at a world where only the model file exists and the
dataset path `gone.ism` does not. -/
theorem data_path_check_unreachable_witness :
    wModelOnly.fs.pathExists "m.isfx" = true ∧
    (fit_model wModelOnly "m.isfx" "gone.ism" wModelOnly.newFitting =
      (match wModelOnly.newFitting.fit "m.isfx" "gone.ism" with
       | Except.ok r => Except.ok (stem "gone.ism", r)
       | Except.error e => Except.error (Err.fitError e)) ∧
     fit_model wModelOnly "m.isfx" "gone.ism" wModelOnly.newFitting ≠
      Except.error (Err.fileNotFound "Impedance data path does not exist")) :=
  ⟨rfl, data_path_check_unreachable wModelOnly "m.isfx" "gone.ism" wModelOnly.newFitting rfl⟩

/-- Claim C4 (code bug): the spec requires that an empty name-to-result
mapping not crash the table build and write.  Evaluating the code at a world
whose dataset directory exists but holds no `*.ism` file: the batch returns
the empty mapping, and the run then aborts with the `ValueError` that
`pd.concat` raises on an empty list, writing nothing. -/
theorem empty_mapping_concat_raises :
    wEmptyDir.fs.isDir "d" = true ∧
    fit_directory_of_models wEmptyDir "m.isfx" "d" = Except.ok [] ∧
    cli wEmptyDir "m.isfx" "d" =
      Except.error (Err.valueError "No objects to concatenate") :=
  ⟨rfl, rfl, rfl⟩

/-- Claim C5 (code bug): the spec requires that callers always construct and
pass a session explicitly, with no implicit shared default.  In the code,
`fit_model` called without a session argument uses the one fixed default
session of source line 11 — the same value for every such call. -/
theorem fit_model_has_shared_default_session (w : World) (m1 z1 m2 z2 : String) :
    fit_model w m1 z1 = fit_model w m1 z1 (defaultFittingConn w) ∧
    fit_model w m2 z2 = fit_model w m2 z2 (defaultFittingConn w) ∧
    defaultFittingConn w = { fit := w.engine } :=
  ⟨rfl, rfl, rfl⟩

/-- Claim C6 (confirmed): if any single fit call of a batch fails — here the
engine raises `msg` on file `p`, every file before `p` having fitted — the
whole batch aborts with that very exception, unmodified, and `cli` returns
the same error: no collected result is flushed and no spreadsheet is
written. -/
theorem batch_aborts_on_fit_failure (w : World) (m zdir ofn msg p : String)
    (l1 l2 : List String)
    (hdir : w.fs.pathExists zdir = true) (hisdir : w.fs.isDir zdir = true)
    (hm : w.fs.pathExists m = true)
    (hglob : w.fs.globIsm zdir = l1 ++ p :: l2)
    (hok : ∀ q ∈ l1, ∃ r, w.engine m q = Except.ok r)
    (hfail : w.engine m p = Except.error msg) :
    fit_directory_of_models w m zdir = Except.error (Err.fitError msg) ∧
    cli w m zdir ofn = Except.error (Err.fitError msg) := by
  have hfa : fitAll w w.newFitting m (w.fs.globIsm zdir) =
      Except.error (Err.fitError msg) := by
    rw [hglob]
    exact fitAll_error w w.newFitting m l1 l2 p msg hm hok hfail
  have hfd : fit_directory_of_models w m zdir = Except.error (Err.fitError msg) := by
    simp [fit_directory_of_models, hdir, hisdir, hfa]
  exact ⟨hfd, by simp [cli, hfd]⟩

/-- Witness for C6 at `wFitFail`: the engine fits `a.ism` and raises on
`b.ism`; the batch and the whole run abort with that message. -/
theorem batch_aborts_on_fit_failure_witness :
    fit_directory_of_models wFitFail "m.isfx" "d" =
      Except.error (Err.fitError "fit did not converge") ∧
    cli wFitFail "m.isfx" "d" "output" =
      Except.error (Err.fitError "fit did not converge") :=
  batch_aborts_on_fit_failure wFitFail "m.isfx" "d" "output" "fit did not converge"
    "d/b.ism" ["d/a.ism"] [] rfl rfl rfl rfl
    (fun q hq => by
      rcases List.mem_singleton.mp hq with rfl
      exact ⟨Json.objCons "p" (Json.num 1) Json.objNil, rfl⟩)
    rfl

/-- Claim C9 fails as stated: with a nonexistent model path but an existing
dataset directory containing no dataset file, the pipeline raises no
path-not-found condition at all — it aborts with the `ValueError` of
`pd.concat` on the empty frame list, because the model path is only ever
checked inside `fit_model`, which never runs. -/
theorem missing_model_no_path_error_on_empty_dir :
    wNoModelEmpty.fs.pathExists "m.isfx" = false ∧
    cli wNoModelEmpty "m.isfx" "d" =
      Except.error (Err.valueError "No objects to concatenate") ∧
    (Err.valueError "No objects to concatenate").isFileNotFound = false :=
  ⟨rfl, rfl, rfl⟩

/-- Claim C9 (amended): with a nonexistent model path and a dataset
directory that exists and contains at least one `*.ism` file, the run
aborts with the path-not-found error naming the model path, before any
dataset is processed — the engine is arbitrary and never consulted, as the
conclusion holds for every `w.engine`. -/
theorem missing_model_aborts_before_fitting (w : World) (m zdir ofn p : String)
    (ps : List String)
    (hm : w.fs.pathExists m = false)
    (hdir : w.fs.pathExists zdir = true) (hisdir : w.fs.isDir zdir = true)
    (hglob : w.fs.globIsm zdir = p :: ps) :
    fit_directory_of_models w m zdir =
      Except.error (Err.fileNotFound "Model path does not exist") ∧
    cli w m zdir ofn = Except.error (Err.fileNotFound "Model path does not exist") := by
  have hfa : fitAll w w.newFitting m (w.fs.globIsm zdir) =
      Except.error (Err.fileNotFound "Model path does not exist") := by
    rw [hglob]
    simp [fitAll, fit_model, hm]
  have hfd : fit_directory_of_models w m zdir =
      Except.error (Err.fileNotFound "Model path does not exist") := by
    simp [fit_directory_of_models, hdir, hisdir, hfa]
  exact ⟨hfd, by simp [cli, hfd]⟩

/-- Witness for the amended C9 at `wNoModel`: the model file is missing and
the directory holds `a.ism`. -/
theorem missing_model_aborts_before_fitting_witness :
    fit_directory_of_models wNoModel "m.isfx" "d" =
      Except.error (Err.fileNotFound "Model path does not exist") ∧
    cli wNoModel "m.isfx" "d" "output" =
      Except.error (Err.fileNotFound "Model path does not exist") :=
  missing_model_aborts_before_fitting wNoModel "m.isfx" "d" "output" "d/a.ism" []
    rfl rfl rfl rfl

/-- Claim C10 (confirmed): when every fit succeeds, the Batch Driver's
mapping is the Python dict of the (stem, result) pairs in glob order; its
value at any stem is the value of the last globbed file with that stem
(last-write-wins), and when all stems are distinct the mapping has exactly
one entry per globbed file. -/
theorem mapping_last_write_wins (w : World) (m zdir : String) (f : String → Json)
    (hdir : w.fs.pathExists zdir = true) (hisdir : w.fs.isDir zdir = true)
    (hm : w.fs.pathExists m = true)
    (hok : ∀ p ∈ w.fs.globIsm zdir, w.engine m p = Except.ok (f p)) :
    fit_directory_of_models w m zdir =
      Except.ok (pyDict ((w.fs.globIsm zdir).map (fun p => (stem p, f p)))) ∧
    (∀ s, listLookup (pyDict ((w.fs.globIsm zdir).map (fun p => (stem p, f p)))) s =
      lastLookup s ((w.fs.globIsm zdir).map (fun p => (stem p, f p)))) ∧
    (((w.fs.globIsm zdir).map stem).Nodup →
      pyDict ((w.fs.globIsm zdir).map (fun p => (stem p, f p))) =
        (w.fs.globIsm zdir).map (fun p => (stem p, f p))) ∧
    (((w.fs.globIsm zdir).map stem).Nodup →
      (pyDict ((w.fs.globIsm zdir).map (fun p => (stem p, f p)))).length =
        (w.fs.globIsm zdir).length) := by
  have hkeys : ((w.fs.globIsm zdir).map (fun p => (stem p, f p))).map Prod.fst =
      (w.fs.globIsm zdir).map stem := by
    rw [List.map_map]
    rfl
  refine ⟨?_, fun s => listLookup_pyDict _ s, ?_, ?_⟩
  · have hfa := fitAll_ok w w.newFitting m (w.fs.globIsm zdir) f hm hok
    simp [fit_directory_of_models, hdir, hisdir, hfa]
  · intro hnd
    exact pyDict_eq_self _ (hkeys ▸ hnd)
  · intro hnd
    rw [pyDict_eq_self _ (hkeys ▸ hnd), List.length_map]

/-- Witness for C10 at `wMixed`: two datasets with distinct stems. -/
theorem mapping_last_write_wins_witness :
    fit_directory_of_models wMixed "m.isfx" "d" =
      Except.ok (pyDict ((wMixed.fs.globIsm "d").map
        (fun p => (stem p, if p == "d/a.ism"
          then Json.objCons "p" (Json.str "1") Json.objNil
          else Json.objCons "p" (Json.str "x") Json.objNil)))) ∧
    (∀ s, listLookup (pyDict ((wMixed.fs.globIsm "d").map
        (fun p => (stem p, if p == "d/a.ism"
          then Json.objCons "p" (Json.str "1") Json.objNil
          else Json.objCons "p" (Json.str "x") Json.objNil)))) s =
      lastLookup s ((wMixed.fs.globIsm "d").map
        (fun p => (stem p, if p == "d/a.ism"
          then Json.objCons "p" (Json.str "1") Json.objNil
          else Json.objCons "p" (Json.str "x") Json.objNil)))) ∧
    (((wMixed.fs.globIsm "d").map stem).Nodup →
      pyDict ((wMixed.fs.globIsm "d").map
        (fun p => (stem p, if p == "d/a.ism"
          then Json.objCons "p" (Json.str "1") Json.objNil
          else Json.objCons "p" (Json.str "x") Json.objNil))) =
        (wMixed.fs.globIsm "d").map
          (fun p => (stem p, if p == "d/a.ism"
            then Json.objCons "p" (Json.str "1") Json.objNil
            else Json.objCons "p" (Json.str "x") Json.objNil))) ∧
    (((wMixed.fs.globIsm "d").map stem).Nodup →
      (pyDict ((wMixed.fs.globIsm "d").map
        (fun p => (stem p, if p == "d/a.ism"
          then Json.objCons "p" (Json.str "1") Json.objNil
          else Json.objCons "p" (Json.str "x") Json.objNil)))).length =
        (wMixed.fs.globIsm "d").length) :=
  mapping_last_write_wins wMixed "m.isfx" "d"
    (fun p => if p == "d/a.ism"
      then Json.objCons "p" (Json.str "1") Json.objNil
      else Json.objCons "p" (Json.str "x") Json.objNil)
    rfl rfl rfl
    (fun p hp => by
      have hg : wMixed.fs.globIsm "d" = ["d/a.ism", "d/b.ism"] := rfl
      rw [hg] at hp
      simp only [List.mem_cons, List.not_mem_nil, or_false] at hp
      rcases hp with rfl | rfl <;> rfl)

/-- Claim C1 fails as stated: in `wMixed` the aggregate column `"p"` holds
the non-numeric string `"x"` in row 1, so per the claim it should keep its
original textual representation in all rows — yet row 0 holds the number 1,
not the text `"1"`, because `pd.to_numeric` runs on each one-row frame
before concatenation. -/
theorem coercion_not_per_aggregate_column :
    cli wMixed "m.isfx" "d" =
      Except.ok ("d/output.xlsx",
        { columns := ["filename", "p"],
          rows := [[some (Json.str "a"), some (Json.num 1)],
                   [some (Json.str "b"), some (Json.str "x")]] }) ∧
    parseNum "x" = none ∧ parseNum "1" = some 1 ∧
    Json.num 1 ≠ Json.str "1" :=
  ⟨rfl, rfl, rfl, by decide⟩

/-- Claim C1 (amended): numeric coercion is per column of each one-row frame
— hence per cell — applied before concatenation: a cell whose string parses
as a number is converted even when the same aggregate column holds a
non-numeric value in another row, the non-numeric cell itself stays textual,
and nothing raises (both frames and the concatenation are `ok`). -/
theorem coercion_per_cell_before_concat
    (n1 n2 k s1 s2 : String) (r1 r2 : Json) (m : Int) (F1 F2 T : Frame)
    (hnd1 : ((json_normalize r1).map Prod.fst).Nodup)
    (hnd2 : ((json_normalize r2).map Prod.fst).Nodup)
    (h1 : (k, Json.str s1) ∈ json_normalize r1)
    (h2 : (k, Json.str s2) ∈ json_normalize r2)
    (hp1 : parseNum s1 = some m) (hp2 : parseNum s2 = none)
    (hF1 : gen_result_table_row n1 r1 = Except.ok F1)
    (hF2 : gen_result_table_row n2 r2 = Except.ok F2)
    (hT : pd_concat [F1, F2] = Except.ok T) :
    T.cell 0 k = some (Json.num m) ∧ T.cell 1 k = some (Json.str s2) := by
  obtain ⟨hf1, hcols1, hrows1⟩ := gen_ok_inv n1 r1 F1 hF1
  obtain ⟨hf2, hcols2, hrows2⟩ := gen_ok_inv n2 r2 F2 hF2
  obtain ⟨hcolsT, hcell0, hcell1, _⟩ := concat_pair_cells F1 F2 T _ _ hrows1 hrows2 hT
  have hk1 : k ∈ F1.columns := by
    rw [hcols1]
    exact List.mem_cons_of_mem _ (List.mem_map.mpr ⟨(k, Json.str s1), h1, rfl⟩)
  have hkT : k ∈ T.columns := by
    rw [hcolsT, mem_firstDedup]
    exact List.mem_append_left _ hk1
  constructor
  · rw [hcell0 k hkT, ← cell_of_rows_singleton F1 _ hrows1 k,
      gen_cell_key n1 r1 F1 k (Json.str s1) hF1 hnd1 h1]
    simp [coerceCell, hp1]
  · rw [hcell1 k hkT, ← cell_of_rows_singleton F2 _ hrows2 k,
      gen_cell_key n2 r2 F2 k (Json.str s2) hF2 hnd2 h2]
    simp [coerceCell, hp2]

/-- Witness for the amended C1 on the two fit results of `wMixed`, with the
two one-row frames and their concatenation given concretely. -/
theorem coercion_per_cell_before_concat_witness :
    Frame.cell
      { columns := ["filename", "p"],
        rows := [[some (Json.str "a"), some (Json.num 1)],
                 [some (Json.str "b"), some (Json.str "x")]] } 0 "p" =
      some (Json.num 1) ∧
    Frame.cell
      { columns := ["filename", "p"],
        rows := [[some (Json.str "a"), some (Json.num 1)],
                 [some (Json.str "b"), some (Json.str "x")]] } 1 "p" =
      some (Json.str "x") :=
  coercion_per_cell_before_concat "a" "b" "p" "1" "x"
    (Json.objCons "p" (Json.str "1") Json.objNil)
    (Json.objCons "p" (Json.str "x") Json.objNil) 1
    { columns := ["filename", "p"], rows := [[some (Json.str "a"), some (Json.num 1)]] }
    { columns := ["filename", "p"], rows := [[some (Json.str "b"), some (Json.str "x")]] }
    { columns := ["filename", "p"],
      rows := [[some (Json.str "a"), some (Json.num 1)],
               [some (Json.str "b"), some (Json.str "x")]] }
    (by decide) (by decide) (by decide) (by decide) rfl rfl rfl rfl rfl

/-- Claim C7 fails as stated: in `wNumStem` the two fit results have
differing key sets and the aggregate is the union with missing cells empty,
but the leading `filename` cell of row 0 is the number 7, not exactly the
source dataset name `"7"` — `pd.to_numeric` also coerces the inserted
filename column. -/
theorem filename_column_coerced :
    cli wNumStem "m.isfx" "d" =
      Except.ok ("d/output.xlsx",
        { columns := ["filename", "p", "q"],
          rows := [[some (Json.num 7), some (Json.num 2), none],
                   [some (Json.str "b"), none, some (Json.num 3)]] }) ∧
    stem "d/7.ism" = "7" ∧
    Json.num 7 ≠ Json.str "7" :=
  ⟨rfl, rfl, by decide⟩

/-- Claim C7 (amended): for two fit results, the concatenated table's column
set is the union of the two rows' flattened key sets with `filename`
leading, each row holds the coerced value at each of its own keys, a row
lacking a key holds the missing value there, and each row's `filename` cell
is the source name put through numeric coercion — the name itself exactly
whenever it is not a numeric string. -/
theorem aggregate_union_columns
    (n1 n2 : String) (r1 r2 : Json) (F1 F2 T : Frame)
    (hnd1 : ((json_normalize r1).map Prod.fst).Nodup)
    (hnd2 : ((json_normalize r2).map Prod.fst).Nodup)
    (hF1 : gen_result_table_row n1 r1 = Except.ok F1)
    (hF2 : gen_result_table_row n2 r2 = Except.ok F2)
    (hT : pd_concat [F1, F2] = Except.ok T) :
    (∀ c, c ∈ T.columns ↔
      (c = "filename" ∨ c ∈ (json_normalize r1).map Prod.fst ∨
        c ∈ (json_normalize r2).map Prod.fst)) ∧
    T.columns.head? = some "filename" ∧
    T.rows.length = 2 ∧
    (∀ k v, (k, v) ∈ json_normalize r1 → T.cell 0 k = some (coerceCell v)) ∧
    (∀ k v, (k, v) ∈ json_normalize r2 → T.cell 1 k = some (coerceCell v)) ∧
    (∀ k, k ∈ (json_normalize r2).map Prod.fst →
      k ∉ (json_normalize r1).map Prod.fst → T.cell 0 k = none) ∧
    (∀ k, k ∈ (json_normalize r1).map Prod.fst →
      k ∉ (json_normalize r2).map Prod.fst → T.cell 1 k = none) ∧
    T.cell 0 "filename" = some (coerceCell (Json.str n1)) ∧
    T.cell 1 "filename" = some (coerceCell (Json.str n2)) ∧
    (∀ s, parseNum s = none → coerceCell (Json.str s) = Json.str s) := by
  obtain ⟨hf1, hcols1, hrows1⟩ := gen_ok_inv n1 r1 F1 hF1
  obtain ⟨hf2, hcols2, hrows2⟩ := gen_ok_inv n2 r2 F2 hF2
  obtain ⟨hcolsT, hcell0, hcell1, hlen⟩ := concat_pair_cells F1 F2 T _ _ hrows1 hrows2 hT
  have hfT : "filename" ∈ T.columns := by
    rw [hcolsT, mem_firstDedup]
    exact List.mem_append_left _ (by rw [hcols1]; exact List.mem_cons_self _ _)
  have hmemT : ∀ k : String, k ∈ (json_normalize r1).map Prod.fst ∨
      k ∈ (json_normalize r2).map Prod.fst → k ∈ T.columns := by
    intro k hk
    rw [hcolsT, mem_firstDedup, List.mem_append, hcols1, hcols2]
    rcases hk with hk | hk
    · exact Or.inl (List.mem_cons_of_mem _ hk)
    · exact Or.inr (List.mem_cons_of_mem _ hk)
  refine ⟨?_, ?_, hlen, ?_, ?_, ?_, ?_, ?_, ?_, ?_⟩
  · intro c
    rw [hcolsT, mem_firstDedup, List.mem_append, hcols1, hcols2]
    simp only [List.mem_cons]
    tauto
  · rw [hcolsT, hcols1]
    simp [firstDedup]
  · intro k v hmem
    rw [hcell0 k (hmemT k (Or.inl (List.mem_map.mpr ⟨(k, v), hmem, rfl⟩))),
      ← cell_of_rows_singleton F1 _ hrows1 k]
    exact gen_cell_key n1 r1 F1 k v hF1 hnd1 hmem
  · intro k v hmem
    rw [hcell1 k (hmemT k (Or.inr (List.mem_map.mpr ⟨(k, v), hmem, rfl⟩))),
      ← cell_of_rows_singleton F2 _ hrows2 k]
    exact gen_cell_key n2 r2 F2 k v hF2 hnd2 hmem
  · intro k hk2 hk1
    rw [hcell0 k (hmemT k (Or.inr hk2)), ← cell_of_rows_singleton F1 _ hrows1 k]
    exact gen_cell_absent n1 r1 F1 k hF1 hk1 (fun heq => hf2 (heq ▸ hk2))
  · intro k hk1 hk2
    rw [hcell1 k (hmemT k (Or.inl hk1)), ← cell_of_rows_singleton F2 _ hrows2 k]
    exact gen_cell_absent n2 r2 F2 k hF2 hk2 (fun heq => hf1 (heq ▸ hk1))
  · rw [hcell0 "filename" hfT, ← cell_of_rows_singleton F1 _ hrows1 "filename"]
    exact gen_cell_name n1 r1 F1 hF1
  · rw [hcell1 "filename" hfT, ← cell_of_rows_singleton F2 _ hrows2 "filename"]
    exact gen_cell_name n2 r2 F2 hF2
  · intro s hs
    simp [coerceCell, hs]

/-- Witness for the amended C7 on two results with disjoint key sets, with
the frames and their concatenation given concretely: the union table has
one missing cell in each row. -/
theorem aggregate_union_columns_witness :
    (Frame.columns
      { columns := ["filename", "p", "q"],
        rows := [[some (Json.str "a"), some (Json.num 2), none],
                 [some (Json.str "b"), none, some (Json.num 3)]] }).head? =
      some "filename" ∧
    (Frame.rows
      { columns := ["filename", "p", "q"],
        rows := [[some (Json.str "a"), some (Json.num 2), none],
                 [some (Json.str "b"), none, some (Json.num 3)]] }).length = 2 ∧
    Frame.cell
      { columns := ["filename", "p", "q"],
        rows := [[some (Json.str "a"), some (Json.num 2), none],
                 [some (Json.str "b"), none, some (Json.num 3)]] } 0 "q" = none ∧
    Frame.cell
      { columns := ["filename", "p", "q"],
        rows := [[some (Json.str "a"), some (Json.num 2), none],
                 [some (Json.str "b"), none, some (Json.num 3)]] } 0 "filename" =
      some (coerceCell (Json.str "a")) ∧
    Frame.cell
      { columns := ["filename", "p", "q"],
        rows := [[some (Json.str "a"), some (Json.num 2), none],
                 [some (Json.str "b"), none, some (Json.num 3)]] } 1 "filename" =
      some (coerceCell (Json.str "b")) := by
  have h :=
    aggregate_union_columns "a" "b"
      (Json.objCons "p" (Json.num 2) Json.objNil)
      (Json.objCons "q" (Json.num 3) Json.objNil)
      { columns := ["filename", "p"], rows := [[some (Json.str "a"), some (Json.num 2)]] }
      { columns := ["filename", "q"], rows := [[some (Json.str "b"), some (Json.num 3)]] }
      { columns := ["filename", "p", "q"],
        rows := [[some (Json.str "a"), some (Json.num 2), none],
                 [some (Json.str "b"), none, some (Json.num 3)]] }
      (by decide) (by decide) rfl rfl rfl
  exact ⟨h.2.1, h.2.2.1, h.2.2.2.2.2.1 "q" (by decide) (by decide),
    h.2.2.2.2.2.2.2.1, h.2.2.2.2.2.2.2.2.1⟩

/-- Claim C8 fails as stated: a nested array is not indexed into columns —
flattening a result whose key `"a"` holds the array `[1, 2]` yields the
single column `"a"` carrying the whole array as one cell, and no indexed
column such as `"a.0"` or `"a.1"` exists. -/
theorem array_kept_as_single_cell :
    json_normalize
        (Json.objCons "a" (Json.arrCons (Json.num 1) (Json.arrCons (Json.num 2) Json.arrNil))
          Json.objNil) =
      [("a", Json.arrCons (Json.num 1) (Json.arrCons (Json.num 2) Json.arrNil))] ∧
    gen_result_table_row "f"
        (Json.objCons "a" (Json.arrCons (Json.num 1) (Json.arrCons (Json.num 2) Json.arrNil))
          Json.objNil) =
      Except.ok
        { columns := ["filename", "a"],
          rows := [[some (Json.str "f"),
            some (Json.arrCons (Json.num 1) (Json.arrCons (Json.num 2) Json.arrNil))]] } ∧
    "a.0" ∉ (["filename", "a"] : List String) ∧
    "a.1" ∉ (["filename", "a"] : List String) :=
  ⟨rfl, rfl, by decide, by decide⟩

/-- Claim C8 (amended): each mapping entry yields exactly one table row; the
columns are the dataset name followed by the flattened keys, where a field
holding a nested object contributes that object's flattened keys joined to
the outer key with a dot, and a field holding an array keeps the whole array
as the single cell of its own column; the `filename` column comes first and
holds the coerced dataset name. -/
theorem row_per_entry_flattening (n : String) (r : Json) (F : Frame)
    (hnd : ((json_normalize r).map Prod.fst).Nodup)
    (hF : gen_result_table_row n r = Except.ok F) :
    F.rows.length = 1 ∧
    F.columns = "filename" :: (json_normalize r).map Prod.fst ∧
    F.cell 0 "filename" = some (coerceCell (Json.str n)) ∧
    (∀ k sub x, HasField r k sub → x ∈ json_normalize sub →
      (k ++ "." ++ x.1, x.2) ∈ json_normalize r) ∧
    (∀ k a, HasField r k a → a.isArr = true →
      (k, a) ∈ json_normalize r ∧ F.cell 0 k = some a) := by
  obtain ⟨hf, hcols, hrows⟩ := gen_ok_inv n r F hF
  refine ⟨gen_rows_length n r F hF, hcols, gen_cell_name n r F hF, ?_, ?_⟩
  · intro k sub x hfield hx
    exact hasField_flatten_dot r k sub x hfield hx
  · intro k a hfield ha
    have hmem : (k, a) ∈ json_normalize r := hasField_flatten_arr r k a hfield ha
    refine ⟨hmem, ?_⟩
    rw [gen_cell_key n r F k a hF hnd hmem, coerceCell_arr a ha]

/-- Witness for the amended C8 on a result with a nested object and an
array-valued field, with the built frame given concretely: the nested key
appears dotted as `a.b` and the array sits whole in the `c` cell. -/
theorem row_per_entry_flattening_witness :
    (Frame.rows
      { columns := ["filename", "a.b", "c"],
        rows := [[some (Json.str "f"), some (Json.num 1),
          some (Json.arrCons (Json.num 4) Json.arrNil)]] }).length = 1 ∧
    Frame.columns
      { columns := ["filename", "a.b", "c"],
        rows := [[some (Json.str "f"), some (Json.num 1),
          some (Json.arrCons (Json.num 4) Json.arrNil)]] } =
      "filename" :: (json_normalize
        (Json.objCons "a" (Json.objCons "b" (Json.num 1) Json.objNil)
          (Json.objCons "c" (Json.arrCons (Json.num 4) Json.arrNil) Json.objNil))).map
        Prod.fst ∧
    Frame.cell
      { columns := ["filename", "a.b", "c"],
        rows := [[some (Json.str "f"), some (Json.num 1),
          some (Json.arrCons (Json.num 4) Json.arrNil)]] } 0 "filename" =
      some (coerceCell (Json.str "f")) ∧
    ("c", Json.arrCons (Json.num 4) Json.arrNil) ∈ json_normalize
      (Json.objCons "a" (Json.objCons "b" (Json.num 1) Json.objNil)
        (Json.objCons "c" (Json.arrCons (Json.num 4) Json.arrNil) Json.objNil)) ∧
    Frame.cell
      { columns := ["filename", "a.b", "c"],
        rows := [[some (Json.str "f"), some (Json.num 1),
          some (Json.arrCons (Json.num 4) Json.arrNil)]] } 0 "c" =
      some (Json.arrCons (Json.num 4) Json.arrNil) := by
  have h :=
    row_per_entry_flattening "f"
      (Json.objCons "a" (Json.objCons "b" (Json.num 1) Json.objNil)
        (Json.objCons "c" (Json.arrCons (Json.num 4) Json.arrNil) Json.objNil))
      { columns := ["filename", "a.b", "c"],
        rows := [[some (Json.str "f"), some (Json.num 1),
          some (Json.arrCons (Json.num 4) Json.arrNil)]] }
      (by decide) rfl
  have harr := h.2.2.2.2 "c" (Json.arrCons (Json.num 4) Json.arrNil)
    (HasField.tail "a" _ (HasField.head "c" _ Json.objNil)) rfl
  exact ⟨h.1, h.2.1, h.2.2.1, harr.1, harr.2⟩

end Snakeeis
